import Mathlib

/-
Verification of the Angle fixed-point quantity type (src/angle.rs).

Embedding conventions: the Rust i64 field is embedded as an Int; the f64
arithmetic of the source is idealized as exact rational arithmetic, and the
IEEE 754 special values that matter here (NaN and the two infinities) are
carried explicitly by the F64 type together with the defined Rust semantics
of the saturating float-to-integer cast.  The private helper Angle::field
divides and reduces only by integer constants, so its exact real-arithmetic
value coincides with pure integer division and remainder; it is embedded
that way below.

The source calls i64::abs in Angle::field and in Angle::from_dms.  That
operation overflows at i64::MIN: overflow-checked builds (the mode the
crate's tests run in) panic, release builds wrap the result to i64::MIN
itself.  Both semantics are embedded: i64abs returns none at i64::MIN and
drives the checked variants of the accessors and of from_dms, while
i64absWrap wraps and drives the plain (release-mode) definitions, whose
negative intermediate values the saturating unsigned casts then send to 0.
-/

/-- Smallest value of a signed 64-bit integer. -/
def i64min : ℤ := -9223372036854775808

/-- Largest value of a signed 64-bit integer. -/
def i64max : ℤ := 9223372036854775807

/-- Rounding of an exact rational to the nearest integer with ties away from
zero: the behaviour of the f64 round method used by the source, under the
exact-arithmetic idealization of floating point used in this development. -/
def roundHalfAway (q : ℚ) : ℤ := if 0 ≤ q then ⌊q + 1/2⌋ else ⌈q - 1/2⌉

/-- Truncation of a rational toward zero, as in a Rust float-to-integer cast. -/
def ratTrunc (q : ℚ) : ℤ := if 0 ≤ q then ⌊q⌋ else ⌈q⌉

/-- An f64 input value: an exact finite value (idealized as a rational) or one
of the IEEE 754 special values relevant to the source. -/
inductive F64 where
  | finite (val : ℚ)
  | posInf
  | negInf
  | nan
deriving DecidableEq

/-- Multiplication of an f64 by a positive finite constant: finite values
multiply exactly, special values are preserved. -/
def F64.mulPos (x : F64) (c : ℚ) : F64 :=
  match x with
  | .finite v => .finite (v * c)
  | .posInf => .posInf
  | .negInf => .negInf
  | .nan => .nan

/-- The f64 round method: nearest integer with ties away from zero on finite
values; NaN and the infinities map to themselves. -/
def F64.roundAway (x : F64) : F64 :=
  match x with
  | .finite v => .finite ((roundHalfAway v : ℤ) : ℚ)
  | y => y

/-- The Rust saturating cast from f64 to i64: truncation toward zero clamped
to the i64 range; NaN casts to 0, the infinities to the extreme i64 values. -/
def F64.asI64 (x : F64) : ℤ :=
  match x with
  | .finite v =>
    if ratTrunc v < i64min then i64min
    else if i64max < ratTrunc v then i64max
    else ratTrunc v
  | .posInf => i64max
  | .negInf => i64min
  | .nan => 0

/-- A signed angle stored as a count of whole microarcseconds
(angle.rs, struct Angle; the single i64 field). -/
structure Angle where
  microarcseconds : ℤ
deriving DecidableEq

/-- The error type of Angle::from_dms (angle.rs, enum DmsError). -/
inductive DmsError where
  | InvalidArcMinutes
  | InvalidArcSeconds
deriving DecidableEq

/-- The number of microarcseconds in one degree (angle.rs, const DG_TO_UAS). -/
def DG_TO_UAS : ℚ := 3600000000

/-- angle.rs, Angle::zero. -/
def Angle.zero : Angle := ⟨0⟩

/-- angle.rs, Angle::from_decimal_degrees on a general f64 input:
(dec * DG_TO_UAS).round() as i64, with the cast's Rust saturating
semantics. -/
def Angle.from_decimal_degrees_f (dec : F64) : Angle :=
  ⟨((dec.mulPos DG_TO_UAS).roundAway).asI64⟩

/-- angle.rs, Angle::from_decimal_degrees restricted to finite inputs
(finite f64 values idealized as exact rationals). -/
def Angle.from_decimal_degrees (dec : ℚ) : Angle :=
  Angle.from_decimal_degrees_f (F64.finite dec)

/-- Rust i64 abs under release (wrapped) semantics: at i64min the true
absolute value is not representable and the result wraps to i64min itself;
everywhere else it is the absolute value.  Overflow-checked builds panic at
i64min instead, which i64abs models. -/
def i64absWrap (x : ℤ) : ℤ := if x = i64min then i64min else (x.natAbs : ℤ)

/-- The magnitude built by Angle::from_dms (the local binding d in the
source): degs.abs() plus minutes over 60 plus seconds over 3600, with
degs.abs() under release semantics (wrapped, hence negative at degs =
i64min; checked builds panic there instead, see from_dms_checked). -/
def Angle.dmsMagnitude (degs mins : ℤ) (secs : ℚ) : ℚ :=
  ((i64absWrap degs : ℤ) : ℚ) + (mins : ℚ) / 60 + secs / 3600

/-- angle.rs, Angle::from_dms: validate minutes, then seconds, then build the
unsigned magnitude and reapply the sign of the degrees argument. -/
def Angle.from_dms (degs : ℤ) (mins : ℤ) (secs : ℚ) : Except DmsError Angle :=
  if mins < 0 ∨ 59 < mins then .error .InvalidArcMinutes
  else if secs < 0 ∨ 60 ≤ secs then .error .InvalidArcSeconds
  else if degs < 0 then
    .ok (Angle.from_decimal_degrees (-(Angle.dmsMagnitude degs mins secs)))
  else .ok (Angle.from_decimal_degrees (Angle.dmsMagnitude degs mins secs))

/-- angle.rs, Angle::as_decimal_degrees: the stored count divided by
DG_TO_UAS (exact value of the f64 quotient, idealized). -/
def Angle.as_decimal_degrees (a : Angle) : ℚ :=
  (a.microarcseconds : ℚ) / DG_TO_UAS

/-- angle.rs, Angle::field: the expression (abs as f64 / div % modu) as u64
with release-mode abs.  For every count other than i64min the abs is the
nonnegative absolute value and, since every call site passes integer
constants for div and modu, the exact real-arithmetic value of the f64
expression is the integer quotient reduced by the modulus.  At i64min the
wrapped abs is negative, so the quotient and float remainder are nonpositive
and the saturating as u64 cast yields 0.  Overflow-checked builds panic at
i64min instead: see field_checked. -/
def Angle.field (a : Angle) (div modu : ℕ) : ℕ :=
  if i64absWrap a.microarcseconds < 0 then 0
  else (i64absWrap a.microarcseconds).toNat / div % modu

/-- angle.rs, Angle::whole_degrees: field with divisor DG_TO_UAS and modulus
360, negated when the stored count is negative. -/
def Angle.whole_degrees (a : Angle) : ℤ :=
  let d : ℤ := (a.field 3600000000 360 : ℕ)
  if a.microarcseconds < 0 then -d else d

/-- angle.rs, Angle::arcminutes; the final cast as u8 reduces modulo 256. -/
def Angle.arcminutes (a : Angle) : ℕ := a.field 60000000 60 % 256

/-- angle.rs, Angle::arcseconds; the final cast as u8 reduces modulo 256. -/
def Angle.arcseconds (a : Angle) : ℕ := a.field 1000000 60 % 256

/-- angle.rs, Angle::arcmilliseconds; the final cast as u16 reduces modulo
65536. -/
def Angle.arcmilliseconds (a : Angle) : ℕ := a.field 1000 1000 % 65536

/-- angle.rs, Measure::from_resolution_unit for Angle. -/
def Angle.from_resolution_unit (amount : ℤ) : Angle := ⟨amount⟩

/-- angle.rs, Measure::as_resolution_unit for Angle. -/
def Angle.as_resolution_unit (a : Angle) : ℤ := a.microarcseconds

/-- Rust i64 abs under overflow-checked semantics: the absolute value of
i64min is not representable, so the operation fails there (none models the
overflow panic); everywhere else it returns the absolute value. -/
def i64abs (x : ℤ) : Option ℤ := if x = i64min then none else some (x.natAbs : ℤ)

/-- Angle::field under overflow-checked integer semantics: none models the
failure of abs at i64min. -/
def Angle.field_checked (a : Angle) (div modu : ℕ) : Option ℕ :=
  (i64abs a.microarcseconds).map (fun v => v.toNat / div % modu)

/-- Angle::whole_degrees under overflow-checked semantics. -/
def Angle.whole_degrees_checked (a : Angle) : Option ℤ :=
  (a.field_checked 3600000000 360).map
    (fun d : ℕ => if a.microarcseconds < 0 then -(d : ℤ) else (d : ℤ))

/-- Angle::arcminutes under overflow-checked semantics. -/
def Angle.arcminutes_checked (a : Angle) : Option ℕ :=
  (a.field_checked 60000000 60).map (· % 256)

/-- Angle::arcseconds under overflow-checked semantics. -/
def Angle.arcseconds_checked (a : Angle) : Option ℕ :=
  (a.field_checked 1000000 60).map (· % 256)

/-- Angle::arcmilliseconds under overflow-checked semantics. -/
def Angle.arcmilliseconds_checked (a : Angle) : Option ℕ :=
  (a.field_checked 1000 1000).map (· % 65536)

/-- Angle::from_dms under overflow-checked semantics: validation happens
first, then degs.abs() is evaluated, which fails (none models the panic) at
degs = i64min. -/
def Angle.from_dms_checked (degs mins : ℤ) (secs : ℚ) :
    Option (Except DmsError Angle) :=
  if mins < 0 ∨ 59 < mins then some (.error .InvalidArcMinutes)
  else if secs < 0 ∨ 60 ≤ secs then some (.error .InvalidArcSeconds)
  else (i64abs degs).map (fun v : ℤ =>
    if degs < 0 then
      .ok (Angle.from_decimal_degrees (-((v : ℚ) + (mins : ℚ) / 60 + secs / 3600)))
    else .ok (Angle.from_decimal_degrees ((v : ℚ) + (mins : ℚ) / 60 + secs / 3600)))

/-- Modelled from the spec: the impl_measure macro that derives the arithmetic
operators for Angle is not part of the provided source; per the spec, addition
of two values of the same quantity type adds their raw resolution-unit
integers exactly, with no floating-point involvement. -/
def Angle.add (a b : Angle) : Angle := ⟨a.microarcseconds + b.microarcseconds⟩

/-- Modelled from the spec: subtraction of two values of the same quantity
type subtracts their raw resolution-unit integers exactly (the impl_measure
macro is not in the provided source). -/
def Angle.sub (a b : Angle) : Angle := ⟨a.microarcseconds - b.microarcseconds⟩

/-- The derived strict comparison on Angle: Rust derive(PartialOrd, Ord) on a
struct with a single i64 field compares that field. -/
def Angle.lt (a b : Angle) : Bool := a.microarcseconds < b.microarcseconds

/-- Rounding an exact integer is the identity. -/
theorem roundHalfAway_intCast (n : ℤ) : roundHalfAway (n : ℚ) = n := by
  unfold roundHalfAway
  split_ifs with h
  · exact Int.floor_eq_iff.mpr ⟨by linarith, by linarith⟩
  · exact Int.ceil_eq_iff.mpr ⟨by linarith, by linarith⟩

/-- Truncating an exact integer is the identity. -/
theorem ratTrunc_intCast (n : ℤ) : ratTrunc (n : ℚ) = n := by
  unfold ratTrunc
  split_ifs with h
  · exact_mod_cast Int.floor_intCast n
  · exact_mod_cast Int.ceil_intCast n

/-- Characterization of roundHalfAway on a nonnegative input. -/
theorem roundHalfAway_eq_of_nonneg (q : ℚ) (n : ℤ) (h0 : 0 ≤ q)
    (h1 : (n : ℚ) ≤ q + 1/2) (h2 : q + 1/2 < (n : ℚ) + 1) :
    roundHalfAway q = n := by
  unfold roundHalfAway
  rw [if_pos h0]
  exact Int.floor_eq_iff.mpr ⟨h1, h2⟩

/-- The rounding error of roundHalfAway is at most one half. -/
theorem roundHalfAway_err (q : ℚ) : |((roundHalfAway q : ℤ) : ℚ) - q| ≤ 1/2 := by
  unfold roundHalfAway
  split_ifs with h
  · have hl := Int.floor_le (q + 1/2)
    have hu := Int.lt_floor_add_one (q + 1/2)
    rw [abs_le]
    push_cast at hl hu
    constructor <;> linarith
  · have hl := Int.le_ceil (q - 1/2)
    have hu := Int.ceil_lt_add_one (q - 1/2)
    rw [abs_le]
    push_cast at hl hu
    constructor <;> linarith

/-- Evaluation of from_decimal_degrees when the rounded scaled value is a
given in-range integer. -/
theorem from_decimal_degrees_eq_mk (q : ℚ) (n : ℤ)
    (h : roundHalfAway (q * DG_TO_UAS) = n)
    (h1 : i64min ≤ n) (h2 : n ≤ i64max) :
    Angle.from_decimal_degrees q = ⟨n⟩ := by
  simp only [Angle.from_decimal_degrees, Angle.from_decimal_degrees_f, F64.mulPos,
    F64.roundAway, F64.asI64]
  rw [h, ratTrunc_intCast, if_neg (not_lt.mpr h1), if_neg (not_lt.mpr h2)]

/-- Evaluation of from_decimal_degrees when the scaled value is exactly a
given in-range integer. -/
theorem from_decimal_degrees_of_int (q : ℚ) (n : ℤ)
    (hq : q * DG_TO_UAS = (n : ℚ)) (h1 : i64min ≤ n) (h2 : n ≤ i64max) :
    Angle.from_decimal_degrees q = ⟨n⟩ :=
  from_decimal_degrees_eq_mk q n (by rw [hq]; exact roundHalfAway_intCast n) h1 h2

/-- Evaluation of from_decimal_degrees when the rounded scaled value exceeds
the i64 range from above: the cast saturates to i64max. -/
theorem from_decimal_degrees_sat_max (q : ℚ) (n : ℤ)
    (h : roundHalfAway (q * DG_TO_UAS) = n) (h2 : i64max < n) :
    Angle.from_decimal_degrees q = ⟨i64max⟩ := by
  simp only [Angle.from_decimal_degrees, Angle.from_decimal_degrees_f, F64.mulPos,
    F64.roundAway, F64.asI64]
  have h1 : ¬ n < i64min :=
    not_lt.mpr (le_trans (by norm_num [i64min, i64max]) h2.le)
  rw [h, ratTrunc_intCast, if_neg h1, if_pos h2]

/-- Evaluation of from_decimal_degrees when the rounded scaled value falls
below the i64 range: the cast saturates to i64min. -/
theorem from_decimal_degrees_sat_min (q : ℚ) (n : ℤ)
    (h : roundHalfAway (q * DG_TO_UAS) = n) (h2 : n < i64min) :
    Angle.from_decimal_degrees q = ⟨i64min⟩ := by
  simp only [Angle.from_decimal_degrees, Angle.from_decimal_degrees_f, F64.mulPos,
    F64.roundAway, F64.asI64]
  rw [h, ratTrunc_intCast, if_pos h2]

/-- On every count other than i64min, Angle::field is the integer quotient of
the absolute value reduced by the modulus. -/
theorem field_eq (a : Angle) (h : a.microarcseconds ≠ i64min) (div modu : ℕ) :
    a.field div modu = a.microarcseconds.natAbs / div % modu := by
  unfold Angle.field i64absWrap
  rw [if_neg h, if_neg (not_lt.mpr (Int.natCast_nonneg _)), Int.toNat_natCast]

/-- Concrete evaluation: 400 degrees. -/
theorem fdd_400 : Angle.from_decimal_degrees 400 = ⟨1440000000000⟩ :=
  from_decimal_degrees_of_int 400 1440000000000 (by norm_num [DG_TO_UAS])
    (by norm_num [i64min]) (by norm_num [i64max])

/-- Concrete evaluation: negative 154.9 degrees. -/
theorem fdd_neg154_9 : Angle.from_decimal_degrees (-154.9) = ⟨-557640000000⟩ :=
  from_decimal_degrees_of_int (-154.9) (-557640000000) (by norm_num [DG_TO_UAS])
    (by norm_num [i64min]) (by norm_num [i64max])

/-- Concrete evaluation: 60 degrees. -/
theorem fdd_60 : Angle.from_decimal_degrees 60 = ⟨216000000000⟩ :=
  from_decimal_degrees_of_int 60 216000000000 (by norm_num [DG_TO_UAS])
    (by norm_num [i64min]) (by norm_num [i64max])

/-- Concrete evaluation: 59.9999999999 degrees rounds to the same count as 60
degrees. -/
theorem fdd_599 : Angle.from_decimal_degrees 59.9999999999 = ⟨216000000000⟩ :=
  from_decimal_degrees_eq_mk 59.9999999999 216000000000
    (roundHalfAway_eq_of_nonneg _ _ (by norm_num [DG_TO_UAS])
      (by norm_num [DG_TO_UAS]) (by norm_num [DG_TO_UAS]))
    (by norm_num [i64min]) (by norm_num [i64max])

/-- Concrete evaluation: 59.999999998 degrees rounds to a distinct count. -/
theorem fdd_598 : Angle.from_decimal_degrees 59.999999998 = ⟨215999999993⟩ :=
  from_decimal_degrees_eq_mk 59.999999998 215999999993
    (roundHalfAway_eq_of_nonneg _ _ (by norm_num [DG_TO_UAS])
      (by norm_num [DG_TO_UAS]) (by norm_num [DG_TO_UAS]))
    (by norm_num [i64min]) (by norm_num [i64max])

/-- C1 counterexample: the source reduces the degree component modulo 360, so
an angle of 400 degrees yields 40 even though the claimed formula (plain
integer division of the absolute microarcsecond count with no modulo
reduction) yields 400. -/
theorem C1_whole_degrees_counterexample :
    (Angle.from_decimal_degrees 400).whole_degrees = 40 ∧
    (((Angle.from_decimal_degrees 400).microarcseconds.natAbs / 3600000000 : ℕ) : ℤ)
      = 400 := by
  rw [fdd_400]
  constructor <;> decide

/-- C1 (amended): for every Angle except the one whose count is i64min
(where abs overflows, see C9), whole_degrees is the truncated quotient of
the absolute microarcsecond count by 3600000000 reduced modulo 360, with the
sign of the stored integer reapplied; an angle of negative 154.9 degrees
yields -154 and an angle of 400 degrees yields 40. -/
theorem C1_whole_degrees_amended :
    (∀ a : Angle, a.microarcseconds ≠ i64min → a.whole_degrees =
      if a.microarcseconds < 0 then
        -((a.microarcseconds.natAbs / 3600000000 % 360 : ℕ) : ℤ)
      else ((a.microarcseconds.natAbs / 3600000000 % 360 : ℕ) : ℤ)) ∧
    (Angle.from_decimal_degrees (-154.9)).whole_degrees = -154 ∧
    (Angle.from_decimal_degrees 400).whole_degrees = 40 := by
  refine ⟨fun a h => by simp only [Angle.whole_degrees, field_eq a h], ?_, ?_⟩
  · rw [fdd_neg154_9]; decide
  · rw [fdd_400]; decide

/-- C1 witness: the amended degree formula exercised at the count 5. -/
theorem C1_whole_degrees_amended_witness :
    (Angle.mk 5).whole_degrees =
      if (Angle.mk 5).microarcseconds < 0 then
        -(((Angle.mk 5).microarcseconds.natAbs / 3600000000 % 360 : ℕ) : ℤ)
      else (((Angle.mk 5).microarcseconds.natAbs / 3600000000 % 360 : ℕ) : ℤ) :=
  C1_whole_degrees_amended.1 (Angle.mk 5) (by decide)

/-- C2 counterexample: at degrees i64min with valid minutes and seconds the
claim demands Ok, but the source evaluates degs.abs() after validation and
overflows, so the overflow-checked program panics instead of returning. -/
theorem C2_overflow_counterexample :
    Angle.from_dms_checked i64min 0 0 = none := by
  unfold Angle.from_dms_checked i64abs
  rw [if_neg (by norm_num), if_neg (by norm_num), if_pos rfl, Option.map_none']

/-- C2 (amended): from_dms fails with InvalidArcMinutes exactly when the
minutes are outside 0..=59, fails with InvalidArcSeconds exactly when the
minutes are in range and the seconds are outside the half-open interval from
0 to 60, and succeeds otherwise except at degrees i64min, where the
post-validation abs overflows (a panic under overflow checks). -/
theorem C2_from_dms_validation_amended :
    ∀ (d m : ℤ) (s : ℚ),
      (Angle.from_dms_checked d m s = some (.error .InvalidArcMinutes) ↔
        m < 0 ∨ 59 < m) ∧
      (Angle.from_dms_checked d m s = some (.error .InvalidArcSeconds) ↔
        ((0 ≤ m ∧ m ≤ 59) ∧ (s < 0 ∨ 60 ≤ s))) ∧
      ((∃ a, Angle.from_dms_checked d m s = some (.ok a)) ↔
        ((0 ≤ m ∧ m ≤ 59) ∧ (0 ≤ s ∧ s < 60) ∧ d ≠ i64min)) := by
  intro d m s
  unfold Angle.from_dms_checked i64abs
  by_cases h1 : m < 0 ∨ 59 < m
  · rw [if_pos h1]
    refine ⟨iff_of_true rfl h1, ?_, ?_⟩
    · exact iff_of_false (by simp) (fun hh => by rcases h1 with h | h <;> omega)
    · exact iff_of_false (fun ⟨a, ha⟩ => by simp at ha)
        (fun hh => by rcases h1 with h | h <;> omega)
  · by_cases h2 : s < 0 ∨ 60 ≤ s
    · rw [if_neg h1, if_pos h2]
      refine ⟨iff_of_false (by simp) h1, ?_, ?_⟩
      · exact iff_of_true rfl ⟨by omega, h2⟩
      · refine iff_of_false (fun ⟨a, ha⟩ => by simp at ha) (fun hh => ?_)
        rcases h2 with h | h
        · exact absurd hh.2.1.1 (not_le.mpr h)
        · exact absurd hh.2.1.2 (not_lt.mpr h)
    · rw [if_neg h1, if_neg h2]
      push_neg at h2
      by_cases h3 : d = i64min
      · rw [if_pos h3, Option.map_none']
        refine ⟨iff_of_false (by simp) h1, ?_, ?_⟩
        · refine iff_of_false (by simp) (fun hh => ?_)
          rcases hh.2 with h | h
          · exact absurd h (not_lt.mpr h2.1)
          · exact absurd h (not_le.mpr h2.2)
        · exact iff_of_false (fun ⟨a, ha⟩ => by simp at ha)
            (fun hh => hh.2.2 h3)
      · rw [if_neg h3, Option.map_some']
        refine ⟨?_, ?_, ?_⟩
        · refine iff_of_false (fun hh => ?_) h1
          split at hh <;> simp at hh
        · refine iff_of_false (fun hh => ?_) (fun hh => by
            rcases hh.2 with h | h
            · exact absurd h (not_lt.mpr h2.1)
            · exact absurd h (not_le.mpr h2.2))
          split at hh <;> simp at hh
        · refine iff_of_true ?_ ⟨by omega, ⟨h2.1, h2.2⟩, h3⟩
          split
          · exact ⟨_, rfl⟩
          · exact ⟨_, rfl⟩

/-- C2 witness: the boundary cases named by the claim, obtained from the
amended validation theorem. -/
theorem C2_from_dms_validation_witness :
    Angle.from_dms_checked 7 60 0 = some (.error .InvalidArcMinutes) ∧
    Angle.from_dms_checked 7 0 60 = some (.error .InvalidArcSeconds) ∧
    ∃ a, Angle.from_dms_checked 7 59 59.999999 = some (.ok a) := by
  refine ⟨?_, ?_, ?_⟩
  · exact (C2_from_dms_validation_amended 7 60 0).1.mpr (by norm_num)
  · exact (C2_from_dms_validation_amended 7 0 60).2.1.mpr (by norm_num)
  · exact (C2_from_dms_validation_amended 7 59 59.999999).2.2.mpr
      ⟨by norm_num, ⟨by norm_num, by norm_num⟩, by norm_num [i64min]⟩

/-- C3 counterexample: at degrees i64min with valid minutes and seconds the
claim demands Ok(from_decimal_degrees(-(abs of d + m over 60 + s over
3600))), which is the saturated i64min angle.  The checked program panics in
degs.abs() instead, and the release program, whose wrapped abs makes the
magnitude negative, returns the i64max angle. -/
theorem C3_overflow_counterexample :
    Angle.from_dms_checked i64min 1 0 = none ∧
    Angle.from_dms i64min 1 0 = .ok ⟨i64max⟩ ∧
    Angle.from_decimal_degrees
      (-((9223372036854775808 : ℚ) + (1 : ℚ) / 60 + (0 : ℚ) / 3600)) = ⟨i64min⟩ := by
  refine ⟨?_, ?_, ?_⟩
  · unfold Angle.from_dms_checked i64abs
    rw [if_neg (by norm_num), if_neg (by norm_num), if_pos rfl, Option.map_none']
  · unfold Angle.from_dms
    rw [if_neg (by norm_num), if_neg (by norm_num), if_pos (by norm_num [i64min])]
    have hmag : -(Angle.dmsMagnitude i64min 1 0) * DG_TO_UAS
        = ((33204139332677192908740000000 : ℤ) : ℚ) := by
      norm_num [Angle.dmsMagnitude, i64absWrap, i64min, DG_TO_UAS]
    rw [from_decimal_degrees_sat_max _ 33204139332677192908740000000
      (by rw [hmag]; exact roundHalfAway_intCast _) (by norm_num [i64max])]
  · exact from_decimal_degrees_sat_min _ (-33204139332677192908860000000)
      (by
        rw [show -((9223372036854775808 : ℚ) + (1 : ℚ) / 60 + (0 : ℚ) / 3600)
            * DG_TO_UAS = ((-33204139332677192908860000000 : ℤ) : ℚ) from by
          norm_num [DG_TO_UAS]]
        exact roundHalfAway_intCast _)
      (by norm_num [i64min])

/-- C3 (amended): on valid inputs whose degrees are not i64min (where abs
overflows), from_dms builds the unsigned magnitude degrees + minutes/60 +
seconds/3600 and reapplies the sign of the degrees argument (zero treated as
non-negative) before delegating to from_decimal_degrees. -/
theorem C3_from_dms_value :
    ∀ (d m : ℤ) (s : ℚ), d ≠ i64min → 0 ≤ m → m ≤ 59 → 0 ≤ s → s < 60 →
      Angle.from_dms d m s = .ok (Angle.from_decimal_degrees
        (if d < 0 then -((d.natAbs : ℚ) + (m : ℚ) / 60 + s / 3600)
         else ((d.natAbs : ℚ) + (m : ℚ) / 60 + s / 3600))) := by
  intro d m s hd hm0 hm59 hs0 hs60
  unfold Angle.from_dms Angle.dmsMagnitude i64absWrap
  rw [if_neg (by omega), if_neg (by push_neg; exact ⟨hs0, hs60⟩), if_neg hd]
  split_ifs with h <;> simp only [Int.cast_natCast]

/-- C3 witness: the DMS round-trip named by the claim. -/
theorem C3_from_dms_value_witness :
    Angle.from_dms 10 30 45 = .ok (Angle.from_decimal_degrees 10.5125) := by
  have h := C3_from_dms_value 10 30 45 (by norm_num [i64min]) (by norm_num)
    (by norm_num) (by norm_num) (by norm_num)
  rw [h, if_neg (by norm_num)]
  norm_num

/-- C4: adding an angle and subtracting it back is exact; the arithmetic is
pure integer arithmetic on the raw microarcsecond counts. -/
theorem C4_add_sub_exact :
    ∀ a b : Angle,
      (i64min ≤ a.microarcseconds ∧ a.microarcseconds ≤ i64max) →
      (i64min ≤ b.microarcseconds ∧ b.microarcseconds ≤ i64max) →
      (i64min ≤ a.microarcseconds + b.microarcseconds ∧
        a.microarcseconds + b.microarcseconds ≤ i64max) →
      (a.add b).sub b = a := by
  intro a b _ _ _
  cases a
  cases b
  simp [Angle.add, Angle.sub]

/-- C4 witness: concrete exact round-trip of addition and subtraction. -/
theorem C4_add_sub_exact_witness :
    (Angle.mk 5 |>.add ⟨7⟩ |>.sub ⟨7⟩) = Angle.mk 5 :=
  C4_add_sub_exact ⟨5⟩ ⟨7⟩ ⟨by decide, by decide⟩ ⟨by decide, by decide⟩
    ⟨by decide, by decide⟩

/-- C5: construction from decimal degrees followed by readback moves the
value by at most half a microarcsecond, whenever the rounded scaled value is
representable in the i64 range. -/
theorem C5_roundtrip :
    ∀ d : ℚ, i64min ≤ roundHalfAway (d * DG_TO_UAS) →
      roundHalfAway (d * DG_TO_UAS) ≤ i64max →
      |(Angle.from_decimal_degrees d).as_decimal_degrees - d| ≤ 1 / 7200000000 := by
  intro d h1 h2
  rw [from_decimal_degrees_eq_mk d (roundHalfAway (d * DG_TO_UAS)) rfl h1 h2]
  have herr := roundHalfAway_err (d * DG_TO_UAS)
  show |((roundHalfAway (d * DG_TO_UAS) : ℤ) : ℚ) / DG_TO_UAS - d| ≤ 1 / 7200000000
  rw [show (DG_TO_UAS : ℚ) = 3600000000 from rfl] at herr ⊢
  rw [abs_le] at herr ⊢
  constructor <;> linarith [herr.1, herr.2]

/-- C5 witness: the round-trip bound at 10.5 degrees. -/
theorem C5_roundtrip_witness :
    |(Angle.from_decimal_degrees 10.5).as_decimal_degrees - 10.5| ≤ 1 / 7200000000 := by
  have hq : (10.5 : ℚ) * DG_TO_UAS = ((37800000000 : ℤ) : ℚ) := by
    norm_num [DG_TO_UAS]
  refine C5_roundtrip 10.5 ?_ ?_ <;>
    rw [hq, roundHalfAway_intCast] <;> norm_num [i64min, i64max]

/-- C6: construction collapses sub-microarcsecond differences and preserves
super-microarcsecond differences. -/
theorem C6_collapse :
    Angle.from_decimal_degrees 60 = Angle.from_decimal_degrees 59.9999999999 ∧
    Angle.from_decimal_degrees 60 ≠ Angle.from_decimal_degrees 59.999999998 := by
  constructor
  · rw [fdd_60, fdd_599]
  · rw [fdd_60, fdd_598]
    decide

/-- C7: the derived comparison and equality on Angle are exactly comparison
and equality of the stored microarcsecond counts. -/
theorem C7_order_eq :
    ∀ a b : Angle,
      (Angle.lt a b = true ↔ a.microarcseconds < b.microarcseconds) ∧
      (a = b ↔ a.microarcseconds = b.microarcseconds) := by
  intro a b
  constructor
  · simp [Angle.lt]
  · cases a
    cases b
    simp

/-- C8 counterexample: at the angle whose count is i64min the claim's
formula gives arcseconds 54, but the release program's wrapped abs drives
the negative quotient through the saturating unsigned cast and returns 0
(and the overflow-checked program panics in abs, as C9 records). -/
theorem C8_min_counterexample :
    (Angle.from_resolution_unit i64min).arcseconds = 0 ∧
    (Angle.from_resolution_unit i64min).microarcseconds.natAbs / 1000000 % 60
      = 54 := by
  constructor <;> decide

/-- C8 (amended): for every Angle except the one whose count is i64min
(where abs overflows: checked builds panic, release builds saturate the
components to 0), each magnitude component accessor equals the truncated
quotient of the absolute microarcsecond count reduced by its period, and
lies within its range; the component accessors are magnitude-only and never
carry the sign. -/
theorem C8_components :
    ∀ a : Angle, a.microarcseconds ≠ i64min →
      a.arcminutes = a.microarcseconds.natAbs / 60000000 % 60 ∧ a.arcminutes ≤ 59 ∧
      a.arcseconds = a.microarcseconds.natAbs / 1000000 % 60 ∧ a.arcseconds ≤ 59 ∧
      a.arcmilliseconds = a.microarcseconds.natAbs / 1000 % 1000 ∧
        a.arcmilliseconds ≤ 999 := by
  intro a h
  simp only [Angle.arcminutes, Angle.arcseconds, Angle.arcmilliseconds, field_eq a h]
  refine ⟨?_, ?_, ?_, ?_, ?_, ?_⟩ <;> omega

/-- C8 witness: the component formulas exercised at the count of the
negative 154.9 degree angle. -/
theorem C8_components_witness :
    (Angle.mk (-557640000000)).arcminutes
        = (Angle.mk (-557640000000)).microarcseconds.natAbs / 60000000 % 60 ∧
      (Angle.mk (-557640000000)).arcminutes ≤ 59 ∧
      (Angle.mk (-557640000000)).arcseconds
        = (Angle.mk (-557640000000)).microarcseconds.natAbs / 1000000 % 60 ∧
      (Angle.mk (-557640000000)).arcseconds ≤ 59 ∧
      (Angle.mk (-557640000000)).arcmilliseconds
        = (Angle.mk (-557640000000)).microarcseconds.natAbs / 1000 % 1000 ∧
      (Angle.mk (-557640000000)).arcmilliseconds ≤ 999 :=
  C8_components (Angle.mk (-557640000000)) (by decide)

/-- C9 counterexample: at the angle whose count is i64min, reachable through
from_resolution_unit, every component accessor takes the absolute value of
i64min, which overflows (a panic under overflow-checked arithmetic, the mode
the crate's own tests build with), so the accessors are not total there. -/
theorem C9_min_counterexample :
    (Angle.from_resolution_unit i64min).whole_degrees_checked = none ∧
    (Angle.from_resolution_unit i64min).arcminutes_checked = none ∧
    (Angle.from_resolution_unit i64min).arcseconds_checked = none ∧
    (Angle.from_resolution_unit i64min).arcmilliseconds_checked = none := by
  refine ⟨?_, ?_, ?_, ?_⟩ <;> decide

/-- C9 (amended): for every constructible Angle except the one whose count is
i64min, the accessors are total and agree with the unchecked semantics; only
from_dms reports failure.  At i64min the absolute value overflows. -/
theorem C9_total_amended :
    ∀ a : Angle, a.microarcseconds ≠ i64min →
      a.whole_degrees_checked = some a.whole_degrees ∧
      a.arcminutes_checked = some a.arcminutes ∧
      a.arcseconds_checked = some a.arcseconds ∧
      a.arcmilliseconds_checked = some a.arcmilliseconds := by
  intro a h
  unfold Angle.whole_degrees_checked Angle.arcminutes_checked
    Angle.arcseconds_checked Angle.arcmilliseconds_checked Angle.field_checked
    i64abs
  rw [if_neg h]
  simp only [Option.map_some', Int.toNat_natCast]
  refine ⟨?_, ?_, ?_, ?_⟩
  · simp only [Angle.whole_degrees, field_eq a h]
  · simp only [Angle.arcminutes, field_eq a h]
  · simp only [Angle.arcseconds, field_eq a h]
  · simp only [Angle.arcmilliseconds, field_eq a h]

/-- C9 witness: a concrete in-range angle on which all checked accessors
return values. -/
theorem C9_total_amended_witness :
    (Angle.from_resolution_unit 5).whole_degrees_checked =
      some (Angle.from_resolution_unit 5).whole_degrees ∧
    (Angle.from_resolution_unit 5).arcminutes_checked =
      some (Angle.from_resolution_unit 5).arcminutes ∧
    (Angle.from_resolution_unit 5).arcseconds_checked =
      some (Angle.from_resolution_unit 5).arcseconds ∧
    (Angle.from_resolution_unit 5).arcmilliseconds_checked =
      some (Angle.from_resolution_unit 5).arcmilliseconds :=
  C9_total_amended (Angle.from_resolution_unit 5) (by decide)

/-- C10: non-finite inputs to from_decimal_degrees follow Rust's defined
saturating cast: NaN yields the zero angle, positive infinity stores i64max,
negative infinity stores i64min. -/
theorem C10_nonfinite :
    Angle.from_decimal_degrees_f .nan = Angle.zero ∧
    (Angle.from_decimal_degrees_f .posInf).microarcseconds = i64max ∧
    (Angle.from_decimal_degrees_f .negInf).microarcseconds = i64min := by
  refine ⟨rfl, rfl, rfl⟩
